import Mathlib

/-!
Formal model of the Bollar Money collateralized-debt-position (CDP) accounting core.
The repository ships design documents, requirements and a Candid interface for the
backend canister, but not the Rust implementation itself; the definitions below are
therefore modelled from the specification of the Ledger, RatioCalculator, PriceFeed
and LiquidationEngine components, keeping the names and the integer (basis-point)
arithmetic of the documents.
-/

namespace BollarMoney

/-- Modelled from the spec: CDP status, one of Active, Liquidated, Closed; the
implementation enum is absent from the repository sources. -/
inductive CDPStatus
  | Active
  | Liquidated
  | Closed
deriving DecidableEq, Repr

/-- Modelled from the spec: a collateralized debt position. The owner is an opaque
identity handle, represented as a natural number; collateral is counted in smallest
collateral units (satoshis) and debt in smallest debt-token units (cents). The Rust
struct is absent from the repository sources. -/
structure CDP where
  id : Nat
  owner : Nat
  collateral_amount : Nat
  minted_amount : Nat
  status : CDPStatus
  created_at : Nat
  last_updated : Nat
deriving DecidableEq, Repr

/-- Modelled from the spec: process-wide system configuration in basis points and
smallest units. The Rust struct is absent from the repository sources. -/
structure SystemConfig where
  max_collateral_ratio_bps : Nat
  liquidation_threshold_bps : Nat
  liquidation_penalty_bps : Nat
  min_collateral_amount : Nat
  max_collateral_amount : Nat
deriving DecidableEq, Repr

/-- Modelled from the spec: the protocol error taxonomy (input, authorization,
state, solvency and oracle errors). The Rust enum is absent from the repository
sources. -/
inductive ProtocolError
  | InvalidAmount
  | Unauthorized
  | CDPNotFound
  | CDPAlreadyLiquidated
  | CDPClosed
  | CDPNotLiquidatable
  | InsufficientCollateral
  | PriceUnavailable
  | PriceStale
  | PriceManipulationSuspected
deriving DecidableEq, Repr

/-- Modelled from the spec: the tagged oracle state {Fresh, Degraded, Unavailable}.
Fresh carries a valid current sample, Degraded carries the last accepted sample
inside the extended validity window, Unavailable means the extended window has
also elapsed. The PriceFeed implementation is absent from the repository sources. -/
inductive PriceState
  | Fresh (price : Nat)
  | Degraded (price : Nat)
  | Unavailable
deriving DecidableEq, Repr

/-- Modelled from the spec: classifies the oracle errors of the error taxonomy. -/
def isOracleError (e : ProtocolError) : Prop :=
  e = ProtocolError.PriceUnavailable ∨ e = ProtocolError.PriceStale ∨
    e = ProtocolError.PriceManipulationSuspected

/-- Modelled from the spec: RatioCalculator collateral_value, integer arithmetic
with a wide (unbounded) intermediate type; the fixed-point unit convention is left
scale-free as the documents leave it open. The Rust function is absent from the
repository sources. -/
def collateral_value (collateral_amount price : Nat) : Nat :=
  collateral_amount * price

/-- Modelled from the spec: RatioCalculator collateral_ratio_bps, returning the
sentinel 10000 when minted_amount is zero to avoid division by zero, otherwise the
floor of collateral_value * 10000 / minted_amount. The Rust function is absent from
the repository sources. -/
def collateral_ratio_bps (collateral_amount minted_amount price : Nat) : Nat :=
  if minted_amount = 0 then 10000
  else collateral_value collateral_amount price * 10000 / minted_amount

/-- Modelled from the spec: RatioCalculator max_mintable; truncated natural
subtraction realizes the max(0, collateral_value * max_ratio_bps / 10000 -
already_minted) of the documents. The Rust function is absent from the repository
sources. -/
def max_mintable (collateral_amount already_minted price max_ratio_bps : Nat) : Nat :=
  collateral_value collateral_amount price * max_ratio_bps / 10000 - already_minted

/-- Modelled from the spec: RatioCalculator is_liquidatable, requiring positive
debt and a ratio strictly below the threshold. The Rust function is absent from the
repository sources. -/
def is_liquidatable (collateral_amount minted_amount price threshold_bps : Nat) : Prop :=
  0 < minted_amount ∧
    collateral_ratio_bps collateral_amount minted_amount price < threshold_bps

instance (c m p t : Nat) : Decidable (is_liquidatable c m p t) := by
  unfold is_liquidatable; infer_instance

/-- Modelled from the spec: RatioCalculator liquidation_split, returning the pair
(owner_share, liquidator_reward) with reward = collateral_amount * penalty_bps /
10000 and owner_share the remainder. The Rust function is absent from the
repository sources. -/
def liquidation_split (collateral_amount penalty_bps : Nat) : Nat × Nat :=
  (collateral_amount - collateral_amount * penalty_bps / 10000,
   collateral_amount * penalty_bps / 10000)

/-- Modelled from the spec: the Ledger, sole owner of CDP state, with the aggregate
totals stored next to the CDP table. The Rust state is absent from the repository
sources. -/
structure LedgerState where
  cdps : List CDP
  next_id : Nat
  total_collateral : Nat
  total_minted : Nat
deriving DecidableEq, Repr

/-- Modelled from the spec: lookup of a CDP by id in the Ledger table (first
match). -/
def lookupCDP : List CDP → Nat → Option CDP
  | [], _ => none
  | c :: rest, i => if c.id = i then some c else lookupCDP rest i

/-- Modelled from the spec: in-place replacement of the CDP with the given id in
the Ledger table (first match). -/
def updateCDP : List CDP → Nat → CDP → List CDP
  | [], _, _ => []
  | c :: rest, i, c2 => if c.id = i then c2 :: rest else c :: updateCDP rest i c2

/-- Modelled from the spec: the result of a successful liquidation, as returned by
the atomic Ledger entry point: the liquidator reward, the owner share of the
collateral, and the burned debt. -/
structure LiquidationResult where
  reward : Nat
  owner_share : Nat
  burned_debt : Nat
deriving DecidableEq, Repr

/-- Modelled from the spec: Ledger.create. Fails InvalidAmount outside the
configured collateral range, otherwise assigns a fresh id, sets status Active and
increases total_collateral in the same step. The Rust function is absent from the
repository sources. Failures return the state unchanged. -/
def create (cfg : SystemConfig) (s : LedgerState) (owner collateral now : Nat) :
    LedgerState × Except ProtocolError Nat :=
  if collateral < cfg.min_collateral_amount ∨ cfg.max_collateral_amount < collateral then
    (s, Except.error ProtocolError.InvalidAmount)
  else
    ({ cdps := s.cdps ++ [⟨s.next_id, owner, collateral, 0, CDPStatus.Active, now, now⟩],
       next_id := s.next_id + 1,
       total_collateral := s.total_collateral + collateral,
       total_minted := s.total_minted },
     Except.ok s.next_id)

/-- Modelled from the spec: Ledger.mint. The price is gathered first (two-phase
rule); a non-fresh sample fails PriceUnavailable. Then the checks run in the order
of the documents: CDPNotFound, Unauthorized, terminal status, then the solvency
bound against max_mintable computed with the same price sample. On success the
minted amount and total_minted increase in the same step. The Rust function is
absent from the repository sources. Failures return the state unchanged. -/
def mint (cfg : SystemConfig) (s : LedgerState) (cdp_id caller amount : Nat)
    (ps : PriceState) (now : Nat) : LedgerState × Except ProtocolError Nat :=
  match ps with
  | PriceState.Fresh price =>
    match lookupCDP s.cdps cdp_id with
    | none => (s, Except.error ProtocolError.CDPNotFound)
    | some c =>
      if caller = c.owner then
        match c.status with
        | CDPStatus.Liquidated => (s, Except.error ProtocolError.CDPAlreadyLiquidated)
        | CDPStatus.Closed => (s, Except.error ProtocolError.CDPClosed)
        | CDPStatus.Active =>
          if amount ≤ max_mintable c.collateral_amount c.minted_amount price
              cfg.max_collateral_ratio_bps then
            ({ s with
               cdps := updateCDP s.cdps cdp_id
                 { c with minted_amount := c.minted_amount + amount, last_updated := now },
               total_minted := s.total_minted + amount },
             Except.ok (c.minted_amount + amount))
          else (s, Except.error ProtocolError.InsufficientCollateral)
      else (s, Except.error ProtocolError.Unauthorized)
  | _ => (s, Except.error ProtocolError.PriceUnavailable)

/-- Modelled from the spec: Ledger.burn. Requires a positive amount not exceeding
the current debt; needs no price sample. On success the minted amount and
total_minted decrease in the same step. The Rust function is absent from the
repository sources. Failures return the state unchanged. -/
def burn (_cfg : SystemConfig) (s : LedgerState) (cdp_id caller amount now : Nat) :
    LedgerState × Except ProtocolError Nat :=
  match lookupCDP s.cdps cdp_id with
  | none => (s, Except.error ProtocolError.CDPNotFound)
  | some c =>
    if caller = c.owner then
      match c.status with
      | CDPStatus.Liquidated => (s, Except.error ProtocolError.CDPAlreadyLiquidated)
      | CDPStatus.Closed => (s, Except.error ProtocolError.CDPClosed)
      | CDPStatus.Active =>
        if amount = 0 ∨ c.minted_amount < amount then
          (s, Except.error ProtocolError.InvalidAmount)
        else
          ({ s with
             cdps := updateCDP s.cdps cdp_id
               { c with minted_amount := c.minted_amount - amount, last_updated := now },
             total_minted := s.total_minted - amount },
           Except.ok (c.minted_amount - amount))
    else (s, Except.error ProtocolError.Unauthorized)

/-- Modelled from the spec: Ledger.close. Requires full repayment
(bollar_amount at least the minted amount); needs no price sample. On success the
status becomes Closed, the debt is zeroed, the full collateral is released to the
owner (returned value) and both totals decrease in the same step. The Rust function
is absent from the repository sources. Failures return the state unchanged. -/
def close (_cfg : SystemConfig) (s : LedgerState) (cdp_id caller bollar_amount now : Nat) :
    LedgerState × Except ProtocolError Nat :=
  match lookupCDP s.cdps cdp_id with
  | none => (s, Except.error ProtocolError.CDPNotFound)
  | some c =>
    if caller = c.owner then
      match c.status with
      | CDPStatus.Liquidated => (s, Except.error ProtocolError.CDPAlreadyLiquidated)
      | CDPStatus.Closed => (s, Except.error ProtocolError.CDPClosed)
      | CDPStatus.Active =>
        if bollar_amount < c.minted_amount then
          (s, Except.error ProtocolError.InsufficientCollateral)
        else
          ({ cdps := updateCDP s.cdps cdp_id
               { c with status := CDPStatus.Closed, minted_amount := 0, last_updated := now },
             next_id := s.next_id,
             total_collateral := s.total_collateral - c.collateral_amount,
             total_minted := s.total_minted - c.minted_amount },
           Except.ok c.collateral_amount)
    else (s, Except.error ProtocolError.Unauthorized)

/-- Modelled from the spec: the liquidation path (LiquidationEngine.execute
delegating to the atomic Ledger entry point apply_liquidation). The price is
gathered first; a non-fresh sample fails PriceUnavailable, since liquidate requires
a non-degraded price. Eligibility (Active status and is_liquidatable) is re-checked
inside the same atomic step and failure yields CDPNotLiquidatable, as the documents
state for the liquidation race. On success all debt is burned, the collateral is
split per liquidation_split, the status becomes Liquidated and both totals decrease
in the same step. The Rust function is absent from the repository sources. Failures
return the state unchanged. -/
def liquidate (cfg : SystemConfig) (s : LedgerState) (cdp_id _caller : Nat)
    (ps : PriceState) (now : Nat) : LedgerState × Except ProtocolError LiquidationResult :=
  match ps with
  | PriceState.Fresh price =>
    match lookupCDP s.cdps cdp_id with
    | none => (s, Except.error ProtocolError.CDPNotFound)
    | some c =>
      if c.status = CDPStatus.Active ∧
          is_liquidatable c.collateral_amount c.minted_amount price
            cfg.liquidation_threshold_bps then
        ({ cdps := updateCDP s.cdps cdp_id
             { c with status := CDPStatus.Liquidated, minted_amount := 0, last_updated := now },
           next_id := s.next_id,
           total_collateral := s.total_collateral - c.collateral_amount,
           total_minted := s.total_minted - c.minted_amount },
         Except.ok ⟨(liquidation_split c.collateral_amount cfg.liquidation_penalty_bps).2,
                    (liquidation_split c.collateral_amount cfg.liquidation_penalty_bps).1,
                    c.minted_amount⟩)
      else (s, Except.error ProtocolError.CDPNotLiquidatable)
  | _ => (s, Except.error ProtocolError.PriceUnavailable)

/-- Modelled from the spec: sum of collateral over the Active CDPs of the table. -/
def sumActiveCollateral : List CDP → Nat
  | [] => 0
  | c :: rest =>
    (if c.status = CDPStatus.Active then c.collateral_amount else 0) + sumActiveCollateral rest

/-- Modelled from the spec: sum of minted debt over the Active CDPs of the table. -/
def sumActiveMinted : List CDP → Nat
  | [] => 0
  | c :: rest =>
    (if c.status = CDPStatus.Active then c.minted_amount else 0) + sumActiveMinted rest

/-- Modelled from the spec: the aggregate-totals consistency invariant, stating
that the stored totals equal the sums over the Active CDPs. -/
def TotalsInv (s : LedgerState) : Prop :=
  s.total_collateral = sumActiveCollateral s.cdps ∧
    s.total_minted = sumActiveMinted s.cdps

instance (s : LedgerState) : Decidable (TotalsInv s) := by
  unfold TotalsInv; infer_instance

/-! Canister interface model: the Candid file declares the read endpoints as
query methods; their Rust bodies are absent from the repository sources, so they
are modelled from the spec as pure reads of the canister state. -/

/-- Modelled from the spec: the full canister state behind the Candid service:
the Ledger, the loaded configuration and the cached price sample state. -/
structure CanisterState where
  ledger : LedgerState
  cfg : SystemConfig
  price : PriceState
deriving DecidableEq, Repr

/-- Modelled from the spec: the price value a state-reading caller observes,
possibly degraded; zero when no sample is available at all. -/
def currentPrice : PriceState → Nat
  | PriceState.Fresh p => p
  | PriceState.Degraded p => p
  | PriceState.Unavailable => 0

/-- Modelled from the spec: the DepositOffer record of the Candid interface. -/
structure DepositOffer where
  btc_price : Nat
  max_bollar_mint : Nat
deriving DecidableEq, Repr

/-- Modelled from the spec: the RepayOffer record of the Candid interface. -/
structure RepayOffer where
  btc_return : Nat
deriving DecidableEq, Repr

/-- Modelled from the spec: the LiquidationOffer record of the Candid interface. -/
structure LiquidationOffer where
  position_id : Nat
  owner : Nat
  btc_collateral : Nat
  bollar_debt : Nat
  liquidation_bonus : Nat
deriving DecidableEq, Repr

/-- Modelled from the spec: the pool-information record of the Candid interface. -/
structure PoolInfo where
  collateral_ratio_bps : Nat
  liquidation_threshold_bps : Nat
  btc_locked : Nat
  bollar_supply : Nat
deriving DecidableEq, Repr

/-- Modelled from the spec: the ProtocolMetrics record of the Candid interface. -/
structure ProtocolMetrics where
  total_btc_locked : Nat
  total_bollar_supply : Nat
  btc_price : Nat
  positions_count : Nat
  liquidatable_positions_count : Nat
deriving DecidableEq, Repr

/-- Modelled from the spec: the pre_deposit query of the Candid interface,
quoting the price and the maximal mintable amount for a prospective deposit;
declared as a read-only query, it returns the state untouched. -/
def pre_deposit (st : CanisterState) (_pool_address btc_amount : Nat) :
    CanisterState × DepositOffer :=
  (st, ⟨currentPrice st.price,
        max_mintable btc_amount 0 (currentPrice st.price) st.cfg.max_collateral_ratio_bps⟩)

/-- Modelled from the spec: the pre_repay query of the Candid interface, quoting
the collateral returned for a full repayment of the position. -/
def pre_repay (st : CanisterState) (position_id bollar_amount : Nat) :
    CanisterState × RepayOffer :=
  match lookupCDP st.ledger.cdps position_id with
  | none => (st, ⟨0⟩)
  | some c => (st, ⟨if c.minted_amount ≤ bollar_amount then c.collateral_amount else 0⟩)

/-- Modelled from the spec: the pre_liquidate query of the Candid interface,
quoting the liquidation offer of a position. -/
def pre_liquidate (st : CanisterState) (position_id _bollar_repay_amount : Nat) :
    CanisterState × LiquidationOffer :=
  match lookupCDP st.ledger.cdps position_id with
  | none => (st, ⟨0, 0, 0, 0, 0⟩)
  | some c =>
    (st, ⟨c.id, c.owner, c.collateral_amount, c.minted_amount,
          (liquidation_split c.collateral_amount st.cfg.liquidation_penalty_bps).2⟩)

/-- Modelled from the spec: the get_liquidatable_positions query of the Candid
interface, scanning the table against one consistent price sample. -/
def get_liquidatable_positions (st : CanisterState) : CanisterState × List CDP :=
  (st, st.ledger.cdps.filter fun c =>
    decide (c.status = CDPStatus.Active ∧
      is_liquidatable c.collateral_amount c.minted_amount (currentPrice st.price)
        st.cfg.liquidation_threshold_bps))

/-- Modelled from the spec: the get_user_positions query of the Candid
interface. -/
def get_user_positions (st : CanisterState) (user : Nat) : CanisterState × List CDP :=
  (st, st.ledger.cdps.filter fun c => decide (c.owner = user))

/-- Modelled from the spec: the get_pool_info query of the Candid interface. -/
def get_pool_info (st : CanisterState) (_pool_address : Nat) : CanisterState × PoolInfo :=
  (st, ⟨st.cfg.max_collateral_ratio_bps, st.cfg.liquidation_threshold_bps,
        st.ledger.total_collateral, st.ledger.total_minted⟩)

/-- Modelled from the spec: the get_btc_price query of the Candid interface. -/
def get_btc_price (st : CanisterState) : CanisterState × Nat :=
  (st, currentPrice st.price)

/-- Modelled from the spec: the get_protocol_metrics query of the Candid
interface. -/
def get_protocol_metrics (st : CanisterState) : CanisterState × ProtocolMetrics :=
  (st, ⟨st.ledger.total_collateral, st.ledger.total_minted, currentPrice st.price,
        st.ledger.cdps.length, (get_liquidatable_positions st).2.length⟩)

/-! Concrete fixtures used by the witness theorems. -/

/-- Concrete configuration with the documented default parameters: 90 percent
maximal collateral ratio, 85 percent liquidation threshold, 5 percent penalty,
and the documented satoshi bounds. -/
def cfg0 : SystemConfig := ⟨9000, 8500, 500, 100000, 100000000000⟩

/-- A healthy Active CDP fixture. -/
def cdpA : CDP := ⟨1, 7, 100000000, 50000000, CDPStatus.Active, 0, 0⟩

/-- A one-position Ledger fixture holding cdpA, with consistent totals. -/
def s0 : LedgerState := ⟨[cdpA], 2, 100000000, 50000000⟩

/-- An undercollateralized Active CDP fixture, liquidatable at price 50. -/
def cdpB : CDP := ⟨1, 7, 100, 100000, CDPStatus.Active, 0, 0⟩

/-- A one-position Ledger fixture holding cdpB, with consistent totals. -/
def s1 : LedgerState := ⟨[cdpB], 2, 100, 100000⟩

/-- An already liquidated CDP fixture. -/
def cdpL : CDP := ⟨1, 7, 100, 0, CDPStatus.Liquidated, 0, 0⟩

/-- A one-position Ledger fixture holding cdpL, with consistent totals. -/
def sL : LedgerState := ⟨[cdpL], 2, 0, 0⟩

/-! Structural lemmas about the Ledger table. -/

lemma lookupCDP_split {l : List CDP} {i : Nat} {c : CDP}
    (h : lookupCDP l i = some c) :
    ∃ l1 l2, l = l1 ++ c :: l2 ∧ lookupCDP l1 i = none ∧ c.id = i ∧
      ∀ c2, updateCDP l i c2 = l1 ++ c2 :: l2 := by
  induction l with
  | nil => simp [lookupCDP] at h
  | cons a rest ih =>
    by_cases ha : a.id = i
    · have h2 : a = c := by simpa [lookupCDP, ha] using h
      subst h2
      exact ⟨[], rest, rfl, rfl, ha, fun c2 => by simp [updateCDP, ha]⟩
    · simp only [lookupCDP, ha, if_neg, ite_false] at h
      obtain ⟨l1, l2, hl, h1, hid, hu⟩ := ih h
      refine ⟨a :: l1, l2, by simp [hl], ?_, hid, fun c2 => ?_⟩
      · simp [lookupCDP, ha, h1]
      · simp [updateCDP, ha, hu c2]

lemma lookupCDP_append_none {l1 : List CDP} (l2 : List CDP) {i : Nat}
    (h : lookupCDP l1 i = none) :
    lookupCDP (l1 ++ l2) i = lookupCDP l2 i := by
  induction l1 with
  | nil => simp
  | cons a rest ih =>
    by_cases ha : a.id = i
    · simp [lookupCDP, ha] at h
    · simp only [lookupCDP, ha, ite_false] at h ⊢
      simp [List.cons_append, lookupCDP, ha, ih h]

lemma lookupCDP_append_some {l1 : List CDP} (l2 : List CDP) {i : Nat} {c : CDP}
    (h : lookupCDP l1 i = some c) :
    lookupCDP (l1 ++ l2) i = some c := by
  induction l1 with
  | nil => simp [lookupCDP] at h
  | cons a rest ih =>
    by_cases ha : a.id = i
    · simp only [lookupCDP, ha, if_pos rfl] at h ⊢
      simpa using h
    · simp only [lookupCDP, ha, ite_false] at h ⊢
      simp [lookupCDP, ha, ih h]

lemma lookupCDP_update_self {l : List CDP} {i : Nat} {c : CDP} (c2 : CDP)
    (h : lookupCDP l i = some c) (hid : c2.id = i) :
    lookupCDP (updateCDP l i c2) i = some c2 := by
  obtain ⟨l1, l2, _, h1, _, hu⟩ := lookupCDP_split h
  rw [hu c2, lookupCDP_append_none _ h1]
  simp [lookupCDP, hid]

lemma lookupCDP_update_ne {l : List CDP} {i j : Nat} {c2 : CDP}
    (hne : j ≠ i) (hid : c2.id = i) :
    lookupCDP (updateCDP l i c2) j = lookupCDP l j := by
  induction l with
  | nil => simp [updateCDP]
  | cons a rest ih =>
    by_cases ha : a.id = i
    · have hij : ¬ i = j := fun hh => hne hh.symm
      simp [updateCDP, lookupCDP, ha, hid, hij]
    · simp [updateCDP, lookupCDP, ha, ih]

lemma sumActiveCollateral_append (l1 l2 : List CDP) :
    sumActiveCollateral (l1 ++ l2) = sumActiveCollateral l1 + sumActiveCollateral l2 := by
  induction l1 with
  | nil => simp [sumActiveCollateral]
  | cons a rest ih => simp [sumActiveCollateral, ih]; omega

lemma sumActiveMinted_append (l1 l2 : List CDP) :
    sumActiveMinted (l1 ++ l2) = sumActiveMinted l1 + sumActiveMinted l2 := by
  induction l1 with
  | nil => simp [sumActiveMinted]
  | cons a rest ih => simp [sumActiveMinted, ih]; omega

lemma sumActiveCollateral_update {l : List CDP} {i : Nat} {c : CDP}
    (hl : lookupCDP l i = some c) (cNew : CDP) :
    sumActiveCollateral (updateCDP l i cNew) +
        (if c.status = CDPStatus.Active then c.collateral_amount else 0) =
      sumActiveCollateral l +
        (if cNew.status = CDPStatus.Active then cNew.collateral_amount else 0) := by
  obtain ⟨l1, l2, hleq, _, _, hu⟩ := lookupCDP_split hl
  rw [hu cNew, hleq, sumActiveCollateral_append, sumActiveCollateral_append]
  simp only [sumActiveCollateral]
  omega

lemma sumActiveMinted_update {l : List CDP} {i : Nat} {c : CDP}
    (hl : lookupCDP l i = some c) (cNew : CDP) :
    sumActiveMinted (updateCDP l i cNew) +
        (if c.status = CDPStatus.Active then c.minted_amount else 0) =
      sumActiveMinted l +
        (if cNew.status = CDPStatus.Active then cNew.minted_amount else 0) := by
  obtain ⟨l1, l2, hleq, _, _, hu⟩ := lookupCDP_split hl
  rw [hu cNew, hleq, sumActiveMinted_append, sumActiveMinted_append]
  simp only [sumActiveMinted]
  omega

/-- Modelled from the spec: the one-directional status transitions permitted by
the state machine, from one observation of a CDP to the next. -/
def statusStep (a b : CDPStatus) : Prop :=
  a = b ∨ (a = CDPStatus.Active ∧ (b = CDPStatus.Closed ∨ b = CDPStatus.Liquidated))

lemma statusStep_of_update {l : List CDP} {i j : Nat} {c cNew c1 c2 : CDP}
    (hl : lookupCDP l i = some c) (hid : cNew.id = i)
    (hstep : statusStep c.status cNew.status)
    (h1 : lookupCDP l j = some c1)
    (h2 : lookupCDP (updateCDP l i cNew) j = some c2) :
    statusStep c1.status c2.status := by
  by_cases hj : j = i
  · subst hj
    rw [hl] at h1
    rw [lookupCDP_update_self cNew hl hid] at h2
    cases h1; cases h2
    exact hstep
  · rw [lookupCDP_update_ne hj hid, h1] at h2
    cases h2
    exact Or.inl rfl

/-! Case-analysis lemmas describing every possible outcome of each operation. -/

lemma mint_cases (cfg : SystemConfig) (s : LedgerState) (cdp_id caller amount : Nat)
    (ps : PriceState) (now : Nat) :
    (∃ e, mint cfg s cdp_id caller amount ps now = (s, Except.error e)) ∨
    ∃ p c, ps = PriceState.Fresh p ∧ lookupCDP s.cdps cdp_id = some c ∧
      c.status = CDPStatus.Active ∧ caller = c.owner ∧
      amount ≤ max_mintable c.collateral_amount c.minted_amount p cfg.max_collateral_ratio_bps ∧
      mint cfg s cdp_id caller amount ps now =
        ({ s with
           cdps := updateCDP s.cdps cdp_id
             { c with minted_amount := c.minted_amount + amount, last_updated := now },
           total_minted := s.total_minted + amount },
         Except.ok (c.minted_amount + amount)) := by
  cases ps with
  | Unavailable => exact Or.inl ⟨ProtocolError.PriceUnavailable, rfl⟩
  | Degraded p => exact Or.inl ⟨ProtocolError.PriceUnavailable, rfl⟩
  | Fresh p =>
    cases hl : lookupCDP s.cdps cdp_id with
    | none => exact Or.inl ⟨ProtocolError.CDPNotFound, by simp [mint, hl]⟩
    | some c =>
      by_cases how : caller = c.owner
      · cases hst : c.status with
        | Liquidated =>
          exact Or.inl ⟨ProtocolError.CDPAlreadyLiquidated, by simp [mint, hl, how, hst]⟩
        | Closed => exact Or.inl ⟨ProtocolError.CDPClosed, by simp [mint, hl, how, hst]⟩
        | Active =>
          by_cases ham : amount ≤ max_mintable c.collateral_amount c.minted_amount p
              cfg.max_collateral_ratio_bps
          · right
            exact ⟨p, c, rfl, rfl, hst, how, ham, by simp [mint, hl, how, hst, ham]⟩
          · exact Or.inl ⟨ProtocolError.InsufficientCollateral, by simp [mint, hl, how, hst, ham]⟩
      · exact Or.inl ⟨ProtocolError.Unauthorized, by simp [mint, hl, how]⟩

lemma burn_cases (cfg : SystemConfig) (s : LedgerState) (cdp_id caller amount now : Nat) :
    (∃ e, burn cfg s cdp_id caller amount now = (s, Except.error e) ∧ ¬ isOracleError e) ∨
    ∃ c, lookupCDP s.cdps cdp_id = some c ∧
      c.status = CDPStatus.Active ∧ caller = c.owner ∧
      0 < amount ∧ amount ≤ c.minted_amount ∧
      burn cfg s cdp_id caller amount now =
        ({ s with
           cdps := updateCDP s.cdps cdp_id
             { c with minted_amount := c.minted_amount - amount, last_updated := now },
           total_minted := s.total_minted - amount },
         Except.ok (c.minted_amount - amount)) := by
  cases hl : lookupCDP s.cdps cdp_id with
  | none =>
    exact Or.inl ⟨ProtocolError.CDPNotFound, by simp [burn, hl], by simp [isOracleError]⟩
  | some c =>
    by_cases how : caller = c.owner
    · cases hst : c.status with
      | Liquidated =>
        exact Or.inl ⟨ProtocolError.CDPAlreadyLiquidated, by simp [burn, hl, how, hst],
          by simp [isOracleError]⟩
      | Closed =>
        exact Or.inl ⟨ProtocolError.CDPClosed, by simp [burn, hl, how, hst],
          by simp [isOracleError]⟩
      | Active =>
        by_cases ham : amount = 0 ∨ c.minted_amount < amount
        · exact Or.inl ⟨ProtocolError.InvalidAmount, by simp [burn, hl, how, hst, ham],
            by simp [isOracleError]⟩
        · right
          push_neg at ham
          exact ⟨c, rfl, hst, how, Nat.pos_of_ne_zero ham.1, ham.2,
            by simp [burn, hl, how, hst, Nat.pos_of_ne_zero ham.1, ham.1, ham.2,
                     Nat.not_lt.mpr ham.2]⟩
    · exact Or.inl ⟨ProtocolError.Unauthorized, by simp [burn, hl, how],
        by simp [isOracleError]⟩

lemma close_cases (cfg : SystemConfig) (s : LedgerState) (cdp_id caller bollar_amount now : Nat) :
    (∃ e, close cfg s cdp_id caller bollar_amount now = (s, Except.error e) ∧
      ¬ isOracleError e) ∨
    ∃ c, lookupCDP s.cdps cdp_id = some c ∧
      c.status = CDPStatus.Active ∧ caller = c.owner ∧
      c.minted_amount ≤ bollar_amount ∧
      close cfg s cdp_id caller bollar_amount now =
        ({ cdps := updateCDP s.cdps cdp_id
             { c with status := CDPStatus.Closed, minted_amount := 0, last_updated := now },
           next_id := s.next_id,
           total_collateral := s.total_collateral - c.collateral_amount,
           total_minted := s.total_minted - c.minted_amount },
         Except.ok c.collateral_amount) := by
  cases hl : lookupCDP s.cdps cdp_id with
  | none =>
    exact Or.inl ⟨ProtocolError.CDPNotFound, by simp [close, hl], by simp [isOracleError]⟩
  | some c =>
    by_cases how : caller = c.owner
    · cases hst : c.status with
      | Liquidated =>
        exact Or.inl ⟨ProtocolError.CDPAlreadyLiquidated, by simp [close, hl, how, hst],
          by simp [isOracleError]⟩
      | Closed =>
        exact Or.inl ⟨ProtocolError.CDPClosed, by simp [close, hl, how, hst],
          by simp [isOracleError]⟩
      | Active =>
        by_cases ham : bollar_amount < c.minted_amount
        · exact Or.inl ⟨ProtocolError.InsufficientCollateral, by simp [close, hl, how, hst, ham],
            by simp [isOracleError]⟩
        · right
          exact ⟨c, rfl, hst, how, Nat.not_lt.mp ham,
            by simp [close, hl, how, hst, ham]⟩
    · exact Or.inl ⟨ProtocolError.Unauthorized, by simp [close, hl, how],
        by simp [isOracleError]⟩

lemma liquidate_cases (cfg : SystemConfig) (s : LedgerState) (cdp_id caller : Nat)
    (ps : PriceState) (now : Nat) :
    (∃ e, liquidate cfg s cdp_id caller ps now = (s, Except.error e)) ∨
    ∃ p c, ps = PriceState.Fresh p ∧ lookupCDP s.cdps cdp_id = some c ∧
      c.status = CDPStatus.Active ∧
      is_liquidatable c.collateral_amount c.minted_amount p cfg.liquidation_threshold_bps ∧
      liquidate cfg s cdp_id caller ps now =
        ({ cdps := updateCDP s.cdps cdp_id
             { c with status := CDPStatus.Liquidated, minted_amount := 0, last_updated := now },
           next_id := s.next_id,
           total_collateral := s.total_collateral - c.collateral_amount,
           total_minted := s.total_minted - c.minted_amount },
         Except.ok ⟨(liquidation_split c.collateral_amount cfg.liquidation_penalty_bps).2,
                    (liquidation_split c.collateral_amount cfg.liquidation_penalty_bps).1,
                    c.minted_amount⟩) := by
  cases ps with
  | Unavailable => exact Or.inl ⟨ProtocolError.PriceUnavailable, rfl⟩
  | Degraded p => exact Or.inl ⟨ProtocolError.PriceUnavailable, rfl⟩
  | Fresh p =>
    cases hl : lookupCDP s.cdps cdp_id with
    | none => exact Or.inl ⟨ProtocolError.CDPNotFound, by simp [liquidate, hl]⟩
    | some c =>
      by_cases helig : c.status = CDPStatus.Active ∧
          is_liquidatable c.collateral_amount c.minted_amount p cfg.liquidation_threshold_bps
      · right
        exact ⟨p, c, rfl, rfl, helig.1, helig.2, by simp [liquidate, hl, helig]⟩
      · exact Or.inl ⟨ProtocolError.CDPNotLiquidatable, by simp [liquidate, hl, helig]⟩

lemma create_cases (cfg : SystemConfig) (s : LedgerState) (owner collateral now : Nat) :
    create cfg s owner collateral now = (s, Except.error ProtocolError.InvalidAmount) ∨
    create cfg s owner collateral now =
      ({ cdps := s.cdps ++ [⟨s.next_id, owner, collateral, 0, CDPStatus.Active, now, now⟩],
         next_id := s.next_id + 1,
         total_collateral := s.total_collateral + collateral,
         total_minted := s.total_minted },
       Except.ok s.next_id) := by
  by_cases h : collateral < cfg.min_collateral_amount ∨ cfg.max_collateral_amount < collateral
  · left; simp [create, h]
  · right; simp [create, h]

/-! Claim theorems. -/

/-- C6: for minted_amount zero, collateral_ratio_bps returns the sentinel value
10000 without dividing, and for positive minted_amount it returns the floor of
collateral_value * 10000 / minted_amount; the division-by-zero branch is never
taken. -/
theorem collateral_ratio_zero_sentinel :
    (∀ c p, collateral_ratio_bps c 0 p = 10000) ∧
    (∀ c m p, 0 < m →
      collateral_ratio_bps c m p = collateral_value c p * 10000 / m) := by
  constructor
  · intro c p
    simp [collateral_ratio_bps]
  · intro c m p hm
    simp [collateral_ratio_bps, hm.ne']

/-- Witness for C6 at concrete inputs. -/
theorem collateral_ratio_zero_sentinel_witness :
    collateral_ratio_bps 1 0 2 = 10000 ∧
      (0 < 2 ∧ collateral_ratio_bps 1 2 3 = collateral_value 1 3 * 10000 / 2) :=
  ⟨collateral_ratio_zero_sentinel.1 1 2,
   ⟨by decide, collateral_ratio_zero_sentinel.2 1 2 3 (by decide)⟩⟩

/-- C9 counterexample: the claimed monotonic decrease of collateral_ratio_bps in
minted_amount fails at the sentinel: with collateral 1 and price 2, minted 0 gives
the sentinel 10000 while minted 1 gives 20000, so moving from minted 0 to minted 1
the ratio increases. -/
theorem ratio_monotone_cex :
    (0 : Nat) ≤ 1 ∧
      ¬ (collateral_ratio_bps 1 1 2 ≤ collateral_ratio_bps 1 0 2) := by decide

/-- C9 amended: collateral_ratio_bps is monotonically decreasing in minted_amount
over positive minted amounts (the sentinel case excluded), and monotonically
increasing in price for every minted_amount, collateral fixed. -/
theorem ratio_monotone_amended :
    (∀ c p m1 m2, 0 < m1 → m1 ≤ m2 →
      collateral_ratio_bps c m2 p ≤ collateral_ratio_bps c m1 p) ∧
    (∀ c m p1 p2, p1 ≤ p2 →
      collateral_ratio_bps c m p1 ≤ collateral_ratio_bps c m p2) := by
  constructor
  · intro c p m1 m2 h1 h12
    have h2 : 0 < m2 := lt_of_lt_of_le h1 h12
    simp only [collateral_ratio_bps, h1.ne', h2.ne', if_false, ite_false]
    exact Nat.div_le_div_left h12 h1
  · intro c m p1 p2 hp
    by_cases hm : m = 0
    · simp [collateral_ratio_bps, hm]
    · simp only [collateral_ratio_bps, hm, ite_false]
      apply Nat.div_le_div_right
      apply Nat.mul_le_mul_right
      exact Nat.mul_le_mul_left _ hp

/-- Witness for the amended C9 at concrete inputs. -/
theorem ratio_monotone_amended_witness :
    (0 < 1 ∧ (1 : Nat) ≤ 2 ∧ collateral_ratio_bps 1 2 3 ≤ collateral_ratio_bps 1 1 3) ∧
      ((2 : Nat) ≤ 5 ∧ collateral_ratio_bps 1 1 2 ≤ collateral_ratio_bps 1 1 5) :=
  ⟨⟨by decide, by decide, ratio_monotone_amended.1 1 3 1 2 (by decide) (by decide)⟩,
   ⟨by decide, ratio_monotone_amended.2 1 1 2 5 (by decide)⟩⟩

/-- C2: every successful liquidation pays the liquidator exactly
collateral_amount * penalty_bps / 10000, pays the original owner the remainder,
and the two shares sum back to the collateral when penalty_bps is at most 10000;
in particular a 500 bps penalty on 100,000,000 collateral splits into exactly
5,000,000 reward and 95,000,000 owner share. -/
theorem liquidation_split_exact :
    (∀ cfg s cdp_id caller ps now r c,
      cfg.liquidation_penalty_bps ≤ 10000 →
      lookupCDP s.cdps cdp_id = some c →
      (liquidate cfg s cdp_id caller ps now).2 = Except.ok r →
      r.reward = c.collateral_amount * cfg.liquidation_penalty_bps / 10000 ∧
      r.owner_share = c.collateral_amount - r.reward ∧
      r.owner_share + r.reward = c.collateral_amount) ∧
    liquidation_split 100000000 500 = (95000000, 5000000) := by
  constructor
  · intro cfg s cdp_id caller ps now r c hpen hl hok
    rcases liquidate_cases cfg s cdp_id caller ps now with ⟨e, heq⟩ |
        ⟨p, c2, hps, hl2, hst, helig, heq⟩
    · rw [heq] at hok
      simp at hok
    · rw [hl] at hl2
      cases hl2
      rw [heq] at hok
      simp only [Except.ok.injEq] at hok
      subst hok
      have hle : c.collateral_amount * cfg.liquidation_penalty_bps / 10000 ≤
          c.collateral_amount := by
        calc c.collateral_amount * cfg.liquidation_penalty_bps / 10000
            ≤ c.collateral_amount * 10000 / 10000 :=
              Nat.div_le_div_right (Nat.mul_le_mul_left _ hpen)
          _ = c.collateral_amount := Nat.mul_div_cancel _ (by norm_num)
      refine ⟨rfl, rfl, ?_⟩
      simp only [liquidation_split]
      omega
  · decide

/-- Witness for C2: a concrete successful liquidation of cdpB under cfg0. -/
theorem liquidation_split_exact_witness :
    (LiquidationResult.mk 5 95 100000).reward =
        cdpB.collateral_amount * cfg0.liquidation_penalty_bps / 10000 ∧
      (LiquidationResult.mk 5 95 100000).owner_share =
        cdpB.collateral_amount - (LiquidationResult.mk 5 95 100000).reward ∧
      (LiquidationResult.mk 5 95 100000).owner_share +
        (LiquidationResult.mk 5 95 100000).reward = cdpB.collateral_amount :=
  liquidation_split_exact.1 cfg0 s1 1 0 (PriceState.Fresh 50) 5 ⟨5, 95, 100000⟩ cdpB
    (by decide) rfl rfl

/-- C1: for an Active CDP owned by the caller and a fresh price sample p, mint
succeeds exactly when the requested amount stays within max_mintable, which equals
max(0, collateral_value * max_ratio_bps / 10000 - minted_amount); above the bound
it fails with InsufficientCollateral and the state, hence the CDP, is unchanged. -/
theorem mint_bound_iff :
    ∀ cfg s cdp_id caller amount p now c,
      lookupCDP s.cdps cdp_id = some c →
      c.status = CDPStatus.Active →
      c.owner = caller →
      ((max_mintable c.collateral_amount c.minted_amount p cfg.max_collateral_ratio_bps : Int) =
        max 0 ((collateral_value c.collateral_amount p * cfg.max_collateral_ratio_bps / 10000 :
          Nat) - (c.minted_amount : Int))) ∧
      (((mint cfg s cdp_id caller amount (PriceState.Fresh p) now).2).isOk = true ↔
        amount ≤ max_mintable c.collateral_amount c.minted_amount p
          cfg.max_collateral_ratio_bps) ∧
      (max_mintable c.collateral_amount c.minted_amount p cfg.max_collateral_ratio_bps < amount →
        mint cfg s cdp_id caller amount (PriceState.Fresh p) now =
          (s, Except.error ProtocolError.InsufficientCollateral)) := by
  intro cfg s cdp_id caller amount p now c hl hst how
  refine ⟨?_, ?_, ?_⟩
  · unfold max_mintable
    generalize collateral_value c.collateral_amount p * cfg.max_collateral_ratio_bps = q
    omega
  · by_cases ham : amount ≤ max_mintable c.collateral_amount c.minted_amount p
        cfg.max_collateral_ratio_bps
    · simp [mint, hl, how, hst, ham, Except.isOk, Except.toBool]
    · simp [mint, hl, how, hst, ham, Except.isOk, Except.toBool]
  · intro hlt
    have ham : ¬ (amount ≤ max_mintable c.collateral_amount c.minted_amount p
        cfg.max_collateral_ratio_bps) := by omega
    simp [mint, hl, how, hst, ham]

/-- Witness for C1: under cfg0 the bound for cdpA at price 1 is 40,000,000, so
requesting one more fails with InsufficientCollateral and leaves s0 unchanged. -/
theorem mint_bound_iff_witness :
    mint cfg0 s0 1 7 40000001 (PriceState.Fresh 1) 0 =
      (s0, Except.error ProtocolError.InsufficientCollateral) :=
  (mint_bound_iff cfg0 s0 1 7 40000001 1 0 cdpA rfl rfl rfl).2.2 (by decide)

/-- C7: for an Active CDP owned by the caller, close succeeds exactly when the
provided bollar_amount covers the whole debt; on success the status becomes
Closed, the debt is zeroed, the full collateral is the released amount, and both
aggregate totals decrease by the collateral and the debt of the CDP. -/
theorem close_full_repayment :
    ∀ cfg s cdp_id caller bollar_amount now c,
      lookupCDP s.cdps cdp_id = some c →
      c.status = CDPStatus.Active →
      c.owner = caller →
      (((close cfg s cdp_id caller bollar_amount now).2).isOk = true ↔
        c.minted_amount ≤ bollar_amount) ∧
      (c.minted_amount ≤ bollar_amount →
        close cfg s cdp_id caller bollar_amount now =
          ({ cdps := updateCDP s.cdps cdp_id
               { c with status := CDPStatus.Closed, minted_amount := 0, last_updated := now },
             next_id := s.next_id,
             total_collateral := s.total_collateral - c.collateral_amount,
             total_minted := s.total_minted - c.minted_amount },
           Except.ok c.collateral_amount) ∧
        lookupCDP (close cfg s cdp_id caller bollar_amount now).1.cdps cdp_id =
          some { c with status := CDPStatus.Closed, minted_amount := 0, last_updated := now }) := by
  intro cfg s cdp_id caller bollar_amount now c hl hst how
  constructor
  · by_cases ham : bollar_amount < c.minted_amount
    · simp [close, hl, how, hst, ham, Except.isOk, Except.toBool]
    · simp [close, hl, how, hst, ham, Except.isOk, Except.toBool]
      omega
  · intro hge
    have ham : ¬ (bollar_amount < c.minted_amount) := by omega
    have heq : close cfg s cdp_id caller bollar_amount now =
        ({ cdps := updateCDP s.cdps cdp_id
             { c with status := CDPStatus.Closed, minted_amount := 0, last_updated := now },
           next_id := s.next_id,
           total_collateral := s.total_collateral - c.collateral_amount,
           total_minted := s.total_minted - c.minted_amount },
         Except.ok c.collateral_amount) := by
      simp [close, hl, how, hst, ham]
    refine ⟨heq, ?_⟩
    obtain ⟨_, _, _, _, hid, _⟩ := lookupCDP_split hl
    rw [heq]
    exact lookupCDP_update_self _ hl (by simpa using hid)

/-- Witness for C7: closing cdpA in s0 with exactly its debt succeeds. -/
theorem close_full_repayment_witness :
    ((close cfg0 s0 1 7 50000000 3).2).isOk = true :=
  (close_full_repayment cfg0 s0 1 7 50000000 3 cdpA rfl rfl rfl).1.mpr (by decide)

/-- C8: with no valid price sample, mint and liquidate fail with PriceUnavailable
and leave the state unchanged, while burn and close never fail with an oracle
error and, when otherwise valid on an Active CDP owned by the caller, succeed
independently of any price feed state. -/
theorem oracle_blocking :
    (∀ cfg s cdp_id caller amount now,
      mint cfg s cdp_id caller amount PriceState.Unavailable now =
        (s, Except.error ProtocolError.PriceUnavailable)) ∧
    (∀ cfg s cdp_id caller now,
      liquidate cfg s cdp_id caller PriceState.Unavailable now =
        (s, Except.error ProtocolError.PriceUnavailable)) ∧
    (∀ cfg s cdp_id caller amount now e,
      (burn cfg s cdp_id caller amount now).2 = Except.error e → ¬ isOracleError e) ∧
    (∀ cfg s cdp_id caller bollar_amount now e,
      (close cfg s cdp_id caller bollar_amount now).2 = Except.error e → ¬ isOracleError e) ∧
    (∀ cfg s cdp_id caller amount now c,
      lookupCDP s.cdps cdp_id = some c → c.status = CDPStatus.Active → c.owner = caller →
      0 < amount → amount ≤ c.minted_amount →
      (burn cfg s cdp_id caller amount now).2 = Except.ok (c.minted_amount - amount)) ∧
    (∀ cfg s cdp_id caller bollar_amount now c,
      lookupCDP s.cdps cdp_id = some c → c.status = CDPStatus.Active → c.owner = caller →
      c.minted_amount ≤ bollar_amount →
      (close cfg s cdp_id caller bollar_amount now).2 = Except.ok c.collateral_amount) := by
  refine ⟨fun _ _ _ _ _ _ => rfl, fun _ _ _ _ _ => rfl, ?_, ?_, ?_, ?_⟩
  · intro cfg s cdp_id caller amount now e h
    rcases burn_cases cfg s cdp_id caller amount now with ⟨e2, heq, hno⟩ | ⟨c, _, _, _, _, _, heq⟩
    · rw [heq] at h
      simp only [Except.error.injEq] at h
      subst h
      exact hno
    · rw [heq] at h
      simp at h
  · intro cfg s cdp_id caller bollar_amount now e h
    rcases close_cases cfg s cdp_id caller bollar_amount now with ⟨e2, heq, hno⟩ |
        ⟨c, _, _, _, _, heq⟩
    · rw [heq] at h
      simp only [Except.error.injEq] at h
      subst h
      exact hno
    · rw [heq] at h
      simp at h
  · intro cfg s cdp_id caller amount now c hl hst how hpos hle
    have ham : ¬ (amount = 0 ∨ c.minted_amount < amount) := by omega
    simp [burn, hl, how, hst, ham]
  · intro cfg s cdp_id caller bollar_amount now c hl hst how hge
    have ham : ¬ (bollar_amount < c.minted_amount) := by omega
    simp [close, hl, how, hst, ham]

/-- Witness for C8: a concrete burn on s0 succeeds with no price available
anywhere in its inputs. -/
theorem oracle_blocking_witness :
    (burn cfg0 s0 1 7 1 0).2 = Except.ok (cdpA.minted_amount - 1) :=
  oracle_blocking.2.2.2.2.1 cfg0 s0 1 7 1 0 cdpA rfl rfl rfl (by decide) (by decide)

/-- C3: on a CDP that is liquidatable at the shared fresh price, two consecutive
liquidate invocations see exactly one success: the first succeeds and the second
fails with CDPNotLiquidatable, leaving the state of the first outcome unchanged. -/
theorem liquidate_race :
    ∀ cfg s cdp_id caller1 caller2 p now1 now2 c,
      lookupCDP s.cdps cdp_id = some c →
      c.status = CDPStatus.Active →
      is_liquidatable c.collateral_amount c.minted_amount p cfg.liquidation_threshold_bps →
      (((liquidate cfg s cdp_id caller1 (PriceState.Fresh p) now1).2).isOk = true) ∧
      liquidate cfg (liquidate cfg s cdp_id caller1 (PriceState.Fresh p) now1).1 cdp_id
          caller2 (PriceState.Fresh p) now2 =
        ((liquidate cfg s cdp_id caller1 (PriceState.Fresh p) now1).1,
         Except.error ProtocolError.CDPNotLiquidatable) := by
  intro cfg s cdp_id caller1 caller2 p now1 now2 c hl hst hliq
  have helig : c.status = CDPStatus.Active ∧
      is_liquidatable c.collateral_amount c.minted_amount p cfg.liquidation_threshold_bps :=
    ⟨hst, hliq⟩
  have heq : liquidate cfg s cdp_id caller1 (PriceState.Fresh p) now1 =
      ({ cdps := updateCDP s.cdps cdp_id
           { c with status := CDPStatus.Liquidated, minted_amount := 0, last_updated := now1 },
         next_id := s.next_id,
         total_collateral := s.total_collateral - c.collateral_amount,
         total_minted := s.total_minted - c.minted_amount },
       Except.ok ⟨(liquidation_split c.collateral_amount cfg.liquidation_penalty_bps).2,
                  (liquidation_split c.collateral_amount cfg.liquidation_penalty_bps).1,
                  c.minted_amount⟩) := by
    simp [liquidate, hl, helig]
  obtain ⟨_, _, _, _, hid, _⟩ := lookupCDP_split hl
  have hlook2 : lookupCDP (liquidate cfg s cdp_id caller1 (PriceState.Fresh p) now1).1.cdps
      cdp_id = some
        { c with status := CDPStatus.Liquidated, minted_amount := 0, last_updated := now1 } := by
    rw [heq]
    exact lookupCDP_update_self _ hl (by simpa using hid)
  refine ⟨?_, ?_⟩
  · rw [heq]
    rfl
  · rw [heq] at hlook2 ⊢
    simp only at hlook2
    simp [liquidate, hlook2]

/-- Witness for C3: the concrete race on the liquidatable fixture cdpB in s1. -/
theorem liquidate_race_witness :
    liquidate cfg0 (liquidate cfg0 s1 1 8 (PriceState.Fresh 50) 1).1 1 9
        (PriceState.Fresh 50) 2 =
      ((liquidate cfg0 s1 1 8 (PriceState.Fresh 50) 1).1,
       Except.error ProtocolError.CDPNotLiquidatable) :=
  (liquidate_race cfg0 s1 1 8 9 50 1 2 cdpB rfl rfl (by decide)).2

/-- C5: the aggregate totals equal the sums of collateral and debt over the Active
CDPs after every create, mint, burn, close or liquidate operation, because each
operation adjusts the totals in the same atomic step as the per-CDP mutation. -/
theorem totals_consistency :
    ∀ cfg s, TotalsInv s →
      (∀ owner collateral now, TotalsInv (create cfg s owner collateral now).1) ∧
      (∀ cdp_id caller amount ps now, TotalsInv (mint cfg s cdp_id caller amount ps now).1) ∧
      (∀ cdp_id caller amount now, TotalsInv (burn cfg s cdp_id caller amount now).1) ∧
      (∀ cdp_id caller bollar_amount now,
        TotalsInv (close cfg s cdp_id caller bollar_amount now).1) ∧
      (∀ cdp_id caller ps now, TotalsInv (liquidate cfg s cdp_id caller ps now).1) := by
  intro cfg s hInv
  obtain ⟨hc, hm⟩ := hInv
  refine ⟨?_, ?_, ?_, ?_, ?_⟩
  · intro owner collateral now
    rcases create_cases cfg s owner collateral now with heq | heq
    · rw [heq]; exact ⟨hc, hm⟩
    · rw [heq]
      simp [TotalsInv, sumActiveCollateral_append, sumActiveCollateral,
            sumActiveMinted_append, sumActiveMinted]
      omega
  · intro cdp_id caller amount ps now
    rcases mint_cases cfg s cdp_id caller amount ps now with ⟨e, heq⟩ |
        ⟨p, c, hps, hl, hst, how, ham, heq⟩
    · rw [heq]; exact ⟨hc, hm⟩
    · rw [heq]
      have h1 := sumActiveCollateral_update hl
        { c with minted_amount := c.minted_amount + amount, last_updated := now }
      have h2 := sumActiveMinted_update hl
        { c with minted_amount := c.minted_amount + amount, last_updated := now }
      simp [hst] at h1 h2
      simp [TotalsInv, hst]
      omega
  · intro cdp_id caller amount now
    rcases burn_cases cfg s cdp_id caller amount now with ⟨e, heq, _⟩ |
        ⟨c, hl, hst, how, hpos, hle, heq⟩
    · rw [heq]; exact ⟨hc, hm⟩
    · rw [heq]
      have h1 := sumActiveCollateral_update hl
        { c with minted_amount := c.minted_amount - amount, last_updated := now }
      have h2 := sumActiveMinted_update hl
        { c with minted_amount := c.minted_amount - amount, last_updated := now }
      simp [hst] at h1 h2
      simp [TotalsInv, hst]
      omega
  · intro cdp_id caller bollar_amount now
    rcases close_cases cfg s cdp_id caller bollar_amount now with ⟨e, heq, _⟩ |
        ⟨c, hl, hst, how, hge, heq⟩
    · rw [heq]; exact ⟨hc, hm⟩
    · rw [heq]
      have h1 := sumActiveCollateral_update hl
        { c with status := CDPStatus.Closed, minted_amount := 0, last_updated := now }
      have h2 := sumActiveMinted_update hl
        { c with status := CDPStatus.Closed, minted_amount := 0, last_updated := now }
      simp [hst] at h1 h2
      simp [TotalsInv, hst]
      omega
  · intro cdp_id caller ps now
    rcases liquidate_cases cfg s cdp_id caller ps now with ⟨e, heq⟩ |
        ⟨p, c, hps, hl, hst, hliq, heq⟩
    · rw [heq]; exact ⟨hc, hm⟩
    · rw [heq]
      have h1 := sumActiveCollateral_update hl
        { c with status := CDPStatus.Liquidated, minted_amount := 0, last_updated := now }
      have h2 := sumActiveMinted_update hl
        { c with status := CDPStatus.Liquidated, minted_amount := 0, last_updated := now }
      simp [hst] at h1 h2
      simp [TotalsInv, hst]
      omega

/-- Witness for C5: the invariant holds for s0 and is preserved by a concrete
mint. -/
theorem totals_consistency_witness :
    TotalsInv (mint cfg0 s0 1 7 1 (PriceState.Fresh 1) 0).1 :=
  ((totals_consistency cfg0 s0 (by decide)).2.1) 1 7 1 (PriceState.Fresh 1) 0

/-- C4 counterexample: liquidating an already liquidated CDP fails with
CDPNotLiquidatable, which is neither CDPAlreadyLiquidated nor CDPClosed, and a
mint by a non-owner against a Liquidated CDP fails with Unauthorized; so not every
operation targeting a terminal CDP fails with the two named status errors. -/
theorem terminal_status_cex :
    (liquidate cfg0 sL 1 9 (PriceState.Fresh 50) 1).2 =
        Except.error ProtocolError.CDPNotLiquidatable ∧
      ProtocolError.CDPNotLiquidatable ≠ ProtocolError.CDPAlreadyLiquidated ∧
      ProtocolError.CDPNotLiquidatable ≠ ProtocolError.CDPClosed ∧
      (mint cfg0 sL 1 8 5 (PriceState.Fresh 50) 1).2 = Except.error ProtocolError.Unauthorized ∧
      ProtocolError.Unauthorized ≠ ProtocolError.CDPAlreadyLiquidated ∧
      ProtocolError.Unauthorized ≠ ProtocolError.CDPClosed :=
  ⟨rfl, by decide, by decide, rfl, by decide, by decide⟩

/-- C4 amended: the status only ever transitions from Active to Closed or from
Active to Liquidated under any of the five operations, both terminal states being
absorbing; a mint, burn or close issued by the owner against a terminal CDP fails
with CDPAlreadyLiquidated (Liquidated) or CDPClosed (Closed), a liquidate against
a terminal CDP fails with CDPNotLiquidatable, and every such failure leaves the
state unchanged, never a silent no-op. -/
theorem terminal_status :
    (∀ cfg s owner collateral now j c1 c2,
      lookupCDP s.cdps j = some c1 →
      lookupCDP (create cfg s owner collateral now).1.cdps j = some c2 →
      statusStep c1.status c2.status) ∧
    (∀ cfg s cdp_id caller amount ps now j c1 c2,
      lookupCDP s.cdps j = some c1 →
      lookupCDP (mint cfg s cdp_id caller amount ps now).1.cdps j = some c2 →
      statusStep c1.status c2.status) ∧
    (∀ cfg s cdp_id caller amount now j c1 c2,
      lookupCDP s.cdps j = some c1 →
      lookupCDP (burn cfg s cdp_id caller amount now).1.cdps j = some c2 →
      statusStep c1.status c2.status) ∧
    (∀ cfg s cdp_id caller bollar_amount now j c1 c2,
      lookupCDP s.cdps j = some c1 →
      lookupCDP (close cfg s cdp_id caller bollar_amount now).1.cdps j = some c2 →
      statusStep c1.status c2.status) ∧
    (∀ cfg s cdp_id caller ps now j c1 c2,
      lookupCDP s.cdps j = some c1 →
      lookupCDP (liquidate cfg s cdp_id caller ps now).1.cdps j = some c2 →
      statusStep c1.status c2.status) ∧
    (∀ cfg s cdp_id caller amount p now c,
      lookupCDP s.cdps cdp_id = some c → caller = c.owner →
      (c.status = CDPStatus.Liquidated →
        mint cfg s cdp_id caller amount (PriceState.Fresh p) now =
          (s, Except.error ProtocolError.CDPAlreadyLiquidated) ∧
        burn cfg s cdp_id caller amount now =
          (s, Except.error ProtocolError.CDPAlreadyLiquidated) ∧
        close cfg s cdp_id caller amount now =
          (s, Except.error ProtocolError.CDPAlreadyLiquidated)) ∧
      (c.status = CDPStatus.Closed →
        mint cfg s cdp_id caller amount (PriceState.Fresh p) now =
          (s, Except.error ProtocolError.CDPClosed) ∧
        burn cfg s cdp_id caller amount now = (s, Except.error ProtocolError.CDPClosed) ∧
        close cfg s cdp_id caller amount now = (s, Except.error ProtocolError.CDPClosed))) ∧
    (∀ cfg s cdp_id caller p now c,
      lookupCDP s.cdps cdp_id = some c → c.status ≠ CDPStatus.Active →
      liquidate cfg s cdp_id caller (PriceState.Fresh p) now =
        (s, Except.error ProtocolError.CDPNotLiquidatable)) := by
  refine ⟨?_, ?_, ?_, ?_, ?_, ?_, ?_⟩
  · intro cfg s owner collateral now j c1 c2 h1 h2
    rcases create_cases cfg s owner collateral now with heq | heq
    · rw [heq] at h2
      simp only at h2
      rw [h1] at h2
      cases h2
      exact Or.inl rfl
    · rw [heq] at h2
      simp only at h2
      rw [lookupCDP_append_some _ h1] at h2
      cases h2
      exact Or.inl rfl
  · intro cfg s cdp_id caller amount ps now j c1 c2 h1 h2
    rcases mint_cases cfg s cdp_id caller amount ps now with ⟨e, heq⟩ |
        ⟨p, c, hps, hl, hstA, how, ham, heq⟩
    · rw [heq] at h2
      simp only at h2
      rw [h1] at h2
      cases h2
      exact Or.inl rfl
    · rw [heq] at h2
      simp only at h2
      obtain ⟨_, _, _, _, hid, _⟩ := lookupCDP_split hl
      refine statusStep_of_update hl (by simpa using hid) ?_ h1 h2
      exact Or.inl rfl
  · intro cfg s cdp_id caller amount now j c1 c2 h1 h2
    rcases burn_cases cfg s cdp_id caller amount now with ⟨e, heq, _⟩ |
        ⟨c, hl, hstA, how, hpos, hle, heq⟩
    · rw [heq] at h2
      simp only at h2
      rw [h1] at h2
      cases h2
      exact Or.inl rfl
    · rw [heq] at h2
      simp only at h2
      obtain ⟨_, _, _, _, hid, _⟩ := lookupCDP_split hl
      refine statusStep_of_update hl (by simpa using hid) ?_ h1 h2
      exact Or.inl rfl
  · intro cfg s cdp_id caller bollar_amount now j c1 c2 h1 h2
    rcases close_cases cfg s cdp_id caller bollar_amount now with ⟨e, heq, _⟩ |
        ⟨c, hl, hstA, how, hge, heq⟩
    · rw [heq] at h2
      simp only at h2
      rw [h1] at h2
      cases h2
      exact Or.inl rfl
    · rw [heq] at h2
      simp only at h2
      obtain ⟨_, _, _, _, hid, _⟩ := lookupCDP_split hl
      exact statusStep_of_update hl (by simpa using hid) (Or.inr ⟨hstA, Or.inl rfl⟩) h1 h2
  · intro cfg s cdp_id caller ps now j c1 c2 h1 h2
    rcases liquidate_cases cfg s cdp_id caller ps now with ⟨e, heq⟩ |
        ⟨p, c, hps, hl, hstA, hliq, heq⟩
    · rw [heq] at h2
      simp only at h2
      rw [h1] at h2
      cases h2
      exact Or.inl rfl
    · rw [heq] at h2
      simp only at h2
      obtain ⟨_, _, _, _, hid, _⟩ := lookupCDP_split hl
      exact statusStep_of_update hl (by simpa using hid) (Or.inr ⟨hstA, Or.inr rfl⟩) h1 h2
  · intro cfg s cdp_id caller amount p now c hl how
    constructor
    · intro hst
      exact ⟨by simp [mint, hl, how, hst], by simp [burn, hl, how, hst],
             by simp [close, hl, how, hst]⟩
    · intro hst
      exact ⟨by simp [mint, hl, how, hst], by simp [burn, hl, how, hst],
             by simp [close, hl, how, hst]⟩
  · intro cfg s cdp_id caller p now c hl hne
    have hfalse : ¬ (c.status = CDPStatus.Active ∧
        is_liquidatable c.collateral_amount c.minted_amount p cfg.liquidation_threshold_bps) :=
      fun h => hne h.1
    simp [liquidate, hl, hfalse]

/-- Witness for the amended C4: concrete failures against the Liquidated fixture
cdpL in sL, by the owner for mint and by a third party for liquidate. -/
theorem terminal_status_witness :
    mint cfg0 sL 1 7 5 (PriceState.Fresh 50) 1 =
        (sL, Except.error ProtocolError.CDPAlreadyLiquidated) ∧
      liquidate cfg0 sL 1 9 (PriceState.Fresh 50) 1 =
        (sL, Except.error ProtocolError.CDPNotLiquidatable) :=
  ⟨((terminal_status.2.2.2.2.2.1 cfg0 sL 1 7 5 50 1 cdpL rfl rfl).1 rfl).1,
   terminal_status.2.2.2.2.2.2 cfg0 sL 1 9 50 1 cdpL rfl (by decide)⟩

/-- C10: every endpoint declared as a query in the Candid service interface is
read-only: for every canister state and arguments it returns its answer and
leaves the whole state (CDP table, totals, configuration and cached price
sample) unchanged. -/
theorem query_endpoints_readonly :
    (∀ st a b, (pre_deposit st a b).1 = st) ∧
    (∀ st a b, (pre_repay st a b).1 = st) ∧
    (∀ st a b, (pre_liquidate st a b).1 = st) ∧
    (∀ st, (get_liquidatable_positions st).1 = st) ∧
    (∀ st u, (get_user_positions st u).1 = st) ∧
    (∀ st a, (get_pool_info st a).1 = st) ∧
    (∀ st, (get_btc_price st).1 = st) ∧
    (∀ st, (get_protocol_metrics st).1 = st) := by
  refine ⟨fun _ _ _ => rfl, ?_, ?_, fun _ => rfl, fun _ _ => rfl, fun _ _ => rfl,
          fun _ => rfl, fun _ => rfl⟩
  · intro st a b
    unfold pre_repay
    cases lookupCDP st.ledger.cdps a <;> rfl
  · intro st a b
    unfold pre_liquidate
    cases lookupCDP st.ledger.cdps a <;> rfl

end BollarMoney
